import Mathlib

/-!
Verification of `client/serviceclient.go` (skynet client-side dispatch core).

The Go source is shallowly embedded below:
* the instance-registry actor (`addInstanceMux`, `removeInstanceMux`, the
  notification dispatch of `mux`) becomes a step function on an explicit
  registry state, with Go heap pointers to `servicePool` values modelled as
  fresh numeric ids and the shared `closed` flags as a set of closed ids;
* the dispatch/retry loop of `send` becomes a step function over the events
  its `select` statement can observe (retry tick, give-up deadline, attempt
  result), iterated over an event trace;
* `sendToInstance` and `attemptSend` become functions of the outcomes of
  their external calls (codec, wire call, pool acquisitions).

The `pools` package and the parent client's `getServicePool` are not part of
the sources under verification; where their behaviour matters they are
modelled from the spec (marked `Modelled from the spec:`).
-/

namespace Skynet

/-- Errors flowing through the client, tagged by provenance so that the Go
type test `err.(serviceError)` (serviceclient.go line 264) can be embedded.
`remote` is the `serviceError` wrapper built at line 179; every other
constructor is an ordinary error value. -/
inductive GoErr
  | transport (code : Nat)
  | remote (code : Nat)
  | requestTimeout
  | marshalErr (code : Nat)
  | unmarshalErr (code : Nat)
  | acquireErr (code : Nat)
  deriving DecidableEq, Repr

/-- The Go type assertion `_, ok := err.(serviceError)`: only errors wrapped
by `serviceError{...}` (line 179) satisfy it. -/
def isServiceError : GoErr → Bool
  | GoErr.remote _ => true
  | _ => false

/-! ## Instance registry actor (mux, addInstanceMux, removeInstanceMux) -/

/-- State owned by the `mux` goroutine: `instances map[string]*servicePool`
as an association list from address key to entry id, the `instancePool`
contents as the list of released entry ids, and the `closed` flags of all
`servicePool` values ever created, as the set (list) of closed ids.
`nextId` supplies a fresh id for each newly created `servicePool`. -/
structure RegState where
  nextId : Nat
  instances : List (String × Nat)
  pool : List Nat
  closedIds : List Nat
  deriving DecidableEq, Repr

/-- Initial state built by `newServiceClient` (lines 41-42): empty map,
empty instance pool. -/
def initRegState : RegState := { nextId := 0, instances := [], pool := [], closedIds := [] }

/-- Modelled from the spec: `pools.ResourcePool.Release` (the `pools`
package is not among the verified sources). Release returns a resource for
reuse, but if the resource reports itself closed the pool discards it
rather than return it to future acquirers (spec section 4.1). -/
def poolRelease (pool closedIds : List Nat) (id : Nat) : List Nat :=
  if id ∈ closedIds then pool else pool ++ [id]

/-- `addInstanceMux` (lines 84-94): if the address key is already known the
call does nothing; otherwise a fresh `servicePool` (modelled as a fresh id,
not closed — the parent client supplies a ready-to-use entry, spec section
6) is stored in the map and released into the instance pool. -/
def addInstanceMux (s : RegState) (key : String) : RegState :=
  match s.instances.lookup key with
  | some _ => s
  | none =>
    { nextId := s.nextId + 1
      instances := s.instances ++ [(key, s.nextId)]
      pool := poolRelease s.pool s.closedIds s.nextId
      closedIds := s.closedIds }

/-- `removeInstanceMux` (lines 96-106): unknown keys return early;
otherwise the entry is closed (`c.instances[key].Close()` sets the shared
`closed` flag, so the id joins `closedIds`) and the key is deleted from the
map. -/
def removeInstanceMux (s : RegState) (key : String) : RegState :=
  match s.instances.lookup key with
  | none => s
  | some id =>
    { nextId := s.nextId
      instances := s.instances.filter (fun p => p.1 ≠ key)
      pool := s.pool
      closedIds := id :: s.closedIds }

/-- Discovery notification types (lines 114-123). -/
inductive NType
  | add
  | update
  | remove
  deriving DecidableEq, Repr

/-- One discovery notification: its type, the instance's address key
(`n.Service.Config.ServiceAddr.String()`), and the `Registered` flag. -/
structure Notification where
  ntype : NType
  addr : String
  registered : Bool
  deriving DecidableEq, Repr

/-- The notification dispatch of `mux` (lines 113-124): Add and Update
branch on `Registered`; Remove always removes. -/
def muxNotification (s : RegState) (n : Notification) : RegState :=
  match n.ntype with
  | NType.add => if n.registered then addInstanceMux s n.addr else removeInstanceMux s n.addr
  | NType.update => if n.registered then addInstanceMux s n.addr else removeInstanceMux s n.addr
  | NType.remove => removeInstanceMux s n.addr

/-- A batch of notifications is processed in listed order (the `for` loop
at line 113). -/
def muxBatch (s : RegState) (ns : List Notification) : RegState :=
  ns.foldl muxNotification s

/-- The entry ids currently stored in the instance map. -/
def mapIds (s : RegState) : List Nat := s.instances.map Prod.snd

/-- The entries currently live in the instance pool: released and not
closed (a closed resource is discarded by the pool rather than handed to
acquirers, spec section 4.1). -/
def livePool (s : RegState) : List Nat :=
  s.pool.filter (fun i => i ∉ s.closedIds)

/-! ## Timeout-configuration channel protocol (mux, SetTimeout, GetTimeout) -/

/-- The `timeoutLengths` pair (lines 80-82); `time.Duration` is a signed
64-bit nanosecond count, modelled as `Int`. -/
structure timeoutLengths where
  retry : Int
  giveup : Int
  deriving DecidableEq, Repr

/-- The channel operations the timeout protocol is built from. A send on a
channel completes only together with a matching receive in another
goroutine. -/
inductive ChanOp
  | recvNotificationChan
  | recvMuxChan
  | sendMuxChan
  | recvTimeoutChan
  | sendTimeoutChan
  deriving DecidableEq, Repr

/-- The select cases of `mux` (lines 111-130): receive a notification batch
from `instanceListener.NotificationChan`, or send the current pair on
`timeoutChan`. These are the only channel operations `mux` performs. -/
def muxSelectOps : List ChanOp := [ChanOp.recvNotificationChan, ChanOp.sendTimeoutChan]

/-- The single channel operation of `SetTimeout` (line 140): a send on
`muxChan`. -/
def setTimeoutOp : ChanOp := ChanOp.sendMuxChan

/-- The single channel operation of `GetTimeout` (line 147): a receive from
`timeoutChan`. -/
def getTimeoutOp : ChanOp := ChanOp.recvTimeoutChan

/-- Which channel operations rendezvous with each other. -/
def chanMatches : ChanOp → ChanOp → Bool
  | ChanOp.sendMuxChan, ChanOp.recvMuxChan => true
  | ChanOp.recvMuxChan, ChanOp.sendMuxChan => true
  | ChanOp.sendTimeoutChan, ChanOp.recvTimeoutChan => true
  | ChanOp.recvTimeoutChan, ChanOp.sendTimeoutChan => true
  | _, _ => false

/-- The whole state owned by the `mux` goroutine: the registry plus the
`retryTimeout` / `giveupTimeout` fields of `ServiceClient` (lines 31-32),
which only `mux` may touch. -/
structure MuxState where
  reg : RegState
  retryTimeout : Int
  giveupTimeout : Int
  deriving DecidableEq, Repr

/-- State at `newServiceClient`: empty registry, both timeouts zero (Go
zero values). -/
def initMuxState : MuxState := { reg := initRegState, retryTimeout := 0, giveupTimeout := 0 }

/-- The events one iteration of the `mux` select (lines 111-130) can
complete on: a notification batch arrives, or a reader takes the offered
timeout pair. There is no case receiving from `muxChan`. -/
inductive MuxEvent
  | notifications (ns : List Notification)
  | timeoutRead
  deriving DecidableEq, Repr

/-- One iteration of the `mux` loop body. The `timeoutRead` case has an
empty body (line 128): the state is unchanged. -/
def muxStep (s : MuxState) : MuxEvent → MuxState
  | MuxEvent.notifications ns => { s with reg := muxBatch s.reg ns }
  | MuxEvent.timeoutRead => s

/-- The pair `mux` offers on `timeoutChan` (lines 125-128), which is what
`GetTimeout` (lines 146-150) returns. -/
def muxOffer (s : MuxState) : timeoutLengths :=
  { retry := s.retryTimeout, giveup := s.giveupTimeout }

/-! ## RPC transport adapter (sendToInstance) -/

/-- `skynet.RequestInfo`, reduced to the field `sendToInstance` sets; the
UUID is modelled as a `Nat`. -/
structure RequestInfo where
  requestID : Nat
  deriving DecidableEq, Repr

/-- The requestInfo actually used by one attempt (lines 154-158 of
`sendToInstance`): a nil pointer is replaced by a fresh one whose
`RequestID` is a freshly drawn UUID; a non-nil pointer is used as is. -/
def sendToInstanceRI (ri : Option RequestInfo) (freshUUID : Nat) : RequestInfo :=
  match ri with
  | none => { requestID := freshUUID }
  | some r => r

/-- `service.ServiceRPCOut`: result bytes plus the remote-signalled
application error (`sout.Err`), the latter modelled as an optional code. -/
structure ServiceRPCOut where
  out : List Nat
  err : Option Nat
  deriving DecidableEq, Repr

/-- What one call of `sendToInstance` produces: the returned result bytes
and error, and whether `sr.Close()` was called on the leased connection. -/
structure STIResult where
  result : List Nat
  err : Option GoErr
  connClosed : Bool
  deriving DecidableEq, Repr

/-- `sendToInstance` (lines 160-184), as a function of the outcomes of its
two external calls: `bson.Marshal(in)` and `sr.rpcClient.Call`. A failed
marshal returns early (line 167). A failed wire call closes the connection
(line 174) and leaves `sout` at its zero value, so the transport error is
returned with nil bytes. On a completed call, a non-nil `sout.Err` is
wrapped as `serviceError` (line 179, here `GoErr.remote`), and `sout.Out`
is returned. -/
def sendToInstance (marshal : Except GoErr (List Nat))
    (call : List Nat → Except GoErr ServiceRPCOut) : STIResult :=
  match marshal with
  | Except.error e => { result := [], err := some e, connClosed := false }
  | Except.ok bytes =>
    match call bytes with
    | Except.error e => { result := [], err := some e, connClosed := true }
    | Except.ok sout =>
      { result := sout.out, err := sout.err.map GoErr.remote, connClosed := false }

/-! ## One dispatch attempt (attemptSend) -/

/-- `sendAttempt` (lines 187-190): what an attempt pushes on the shared
attempt channel. -/
structure sendAttempt where
  result : List Nat := []
  err : Option GoErr := none
  deriving DecidableEq, Repr

/-- Whether the attempt goroutine pushed a result or died on the nil type
assertion at line 195. -/
inductive AttemptPush
  | panicked
  | pushed (a : sendAttempt)
  deriving DecidableEq, Repr

/-- The observable outcome of one `attemptSend` call: what was pushed, the
connection's fate, and the state it leaves behind (closed flags, instance
map, instance pool). -/
structure AttemptOutcome where
  push : AttemptPush
  connClosed : Bool
  closedIdsAfter : List Nat
  instancesAfter : List (String × Nat)
  instPoolAfter : List Nat
  deriving DecidableEq, Repr

/-- `attemptSend` (lines 192-215), as a function of the outcomes of its
external interactions. `spr` and `instAcqErr` are the two results of
`c.instancePool.Acquire()` at line 194 — the error is bound to `_` there,
so `instAcqErr` is never consulted. A nil `spr` makes the type assertion
`spr.(*servicePool)` at line 195 panic, before the `defer` at line 196 is
registered. Otherwise, a failed connection acquisition (lines 199-205) is
pushed as the attempt's error; a leased connection runs `sendToInstance`
and pushes its result. The deferred `c.instancePool.Release(sp)` runs on
every non-panicking path. Nothing here writes `sp.closed` or the instance
map. -/
def attemptSendRun (instances : List (String × Nat)) (instPool closedIds : List Nat)
    (spId : Nat) (spr : Option Unit) (_instAcqErr : Option GoErr)
    (connAcq : Except GoErr Unit) (marshal : Except GoErr (List Nat))
    (call : List Nat → Except GoErr ServiceRPCOut) : AttemptOutcome :=
  match spr with
  | none =>
    { push := AttemptPush.panicked, connClosed := false, closedIdsAfter := closedIds
      instancesAfter := instances, instPoolAfter := instPool }
  | some _ =>
    match connAcq with
    | Except.error e =>
      { push := AttemptPush.pushed { result := [], err := some e }
        connClosed := false
        closedIdsAfter := closedIds
        instancesAfter := instances
        instPoolAfter := poolRelease instPool closedIds spId }
    | Except.ok _ =>
      let r := sendToInstance marshal call
      { push := AttemptPush.pushed { result := r.result, err := r.err }
        connClosed := r.connClosed
        closedIdsAfter := closedIds
        instancesAfter := instances
        instPoolAfter := poolRelease instPool closedIds spId }

/-! ## Dispatch/retry engine (send, Send, SendOnce) -/

/-- What `send` sets up before entering its loop (lines 236-249): a ticker
iff `retry > 0`, a deadline timer iff `giveup > 0`, and the first attempt
launched with the caller's `ri` passed through unchanged (line 249; `send`
itself never replaces a nil `ri`). -/
structure SendSetup where
  hasTicker : Bool
  hasTimer : Bool
  attemptRI : Option RequestInfo
  deriving DecidableEq, Repr

def sendSetup (retry giveup : Int) (ri : Option RequestInfo) : SendSetup :=
  { hasTicker := decide (0 < retry), hasTimer := decide (0 < giveup), attemptRI := ri }

/-- The events the `select` of `send` (lines 251-276) can observe. -/
inductive SendEvent
  | tick
  | deadline
  | attempt (a : sendAttempt)
  deriving DecidableEq, Repr

/-- Outcome of one iteration of the `send` loop: return to the caller with
the given error, or keep looping with an updated `err` variable. -/
inductive StepOut
  | Return (r : Option GoErr)
  | Continue (e : Option GoErr)
  deriving DecidableEq, Repr

/-- One iteration of the `send` select (lines 251-276). `u` is the outcome
of `bson.Unmarshal(attempt.result, out)`: the decoder applied to the
attempt's bytes. A tick relaunches an attempt and keeps looping. The
deadline returns `ErrRequestTimeout` if `err` is still nil, else the last
recorded error (lines 255-260). An arriving attempt overwrites `err`; a
non-`serviceError` error returns at once when `giveup == 0` and otherwise
continues (lines 261-270); on a nil or `serviceError` error the flow falls
through to the decode-and-return at lines 273-274. -/
def sendStep (giveup : Int) (u : List Nat → Option GoErr) (err : Option GoErr) :
    SendEvent → StepOut
  | SendEvent.tick => StepOut.Continue err
  | SendEvent.deadline =>
    match err with
    | none => StepOut.Return (some GoErr.requestTimeout)
    | some e => StepOut.Return (some e)
  | SendEvent.attempt a =>
    match a.err with
    | some e =>
      if isServiceError e then StepOut.Return (u a.result)
      else if giveup = 0 then StepOut.Return (some e)
      else StepOut.Continue (some e)
    | none => StepOut.Return (u a.result)

/-- Outcome of running the `send` loop over a finite trace of events:
either it returned, or it is still looping with the recorded `err`. -/
inductive RunOut
  | Running (e : Option GoErr)
  | Returned (r : Option GoErr)
  deriving DecidableEq, Repr

/-- Iterate `sendStep` over an event trace, starting from the given `err`
variable (nil when the loop is entered). -/
def sendRun (giveup : Int) (u : List Nat → Option GoErr) :
    Option GoErr → List SendEvent → RunOut
  | e, [] => RunOut.Running e
  | e, ev :: evs =>
    match sendStep giveup u e ev with
    | StepOut.Return r => RunOut.Returned r
    | StepOut.Continue e2 => sendRun giveup u e2 evs

/-- An event on which the `send` loop keeps looping when a deadline is
configured: a retry tick, or an attempt carrying a transport-level
(non-`serviceError`) error. -/
def nonTerminalEv : SendEvent → Bool
  | SendEvent.tick => true
  | SendEvent.deadline => false
  | SendEvent.attempt a =>
    match a.err with
    | some e => !isServiceError e
    | none => false

/-- The error variable after processing a trace of non-terminal events:
each attempt event overwrites it with that attempt's error. -/
def lastAttemptErr (evs : List SendEvent) : Option GoErr :=
  evs.foldl
    (fun acc ev =>
      match ev with
      | SendEvent.attempt a => a.err
      | _ => acc)
    none

/-! ## Association-list helpers -/

theorem lookup_eq_none_iff (l : List (String × Nat)) (k : String) :
    l.lookup k = none ↔ ∀ p ∈ l, p.1 ≠ k := by
  induction l with
  | nil => simp
  | cons p t ih =>
    obtain ⟨k2, v⟩ := p
    by_cases hk : k = k2
    · subst hk
      simp [List.lookup_cons]
    · simp [List.lookup_cons, beq_false_of_ne hk, ih, Ne.symm hk]

theorem mem_of_lookup_eq_some (l : List (String × Nat)) (k : String) (v : Nat)
    (h : l.lookup k = some v) : (k, v) ∈ l := by
  induction l with
  | nil => simp at h
  | cons p t ih =>
    obtain ⟨k2, v2⟩ := p
    by_cases hk : k = k2
    · subst hk
      simp [List.lookup_cons] at h
      simp [h]
    · rw [List.lookup_cons] at h
      simp only [beq_false_of_ne hk] at h
      exact List.mem_cons_of_mem _ (ih h)

theorem nodup_fst_eq (l : List (String × Nat)) (hn : (l.map Prod.fst).Nodup)
    (k : String) (v1 v2 : Nat) (h1 : (k, v1) ∈ l) (h2 : (k, v2) ∈ l) : v1 = v2 := by
  induction l with
  | nil => cases h1
  | cons p t ih =>
    simp only [List.map_cons, List.nodup_cons] at hn
    rcases List.mem_cons.1 h1 with h1 | h1 <;> rcases List.mem_cons.1 h2 with h2 | h2
    · rw [← h1] at h2
      exact (Prod.mk.injEq _ _ _ _ ▸ h2).2.symm
    · exact absurd (List.mem_map_of_mem Prod.fst h2) (by simp [← h1] at hn ⊢; exact hn.1)
    · exact absurd (List.mem_map_of_mem Prod.fst h1) (by simp [← h2] at hn ⊢; exact hn.1)
    · exact ih hn.2 h1 h2

theorem nodup_snd_eq (l : List (String × Nat)) (hn : (l.map Prod.snd).Nodup)
    (v : Nat) (k1 k2 : String) (h1 : (k1, v) ∈ l) (h2 : (k2, v) ∈ l) : k1 = k2 := by
  induction l with
  | nil => cases h1
  | cons p t ih =>
    simp only [List.map_cons, List.nodup_cons] at hn
    rcases List.mem_cons.1 h1 with h1 | h1 <;> rcases List.mem_cons.1 h2 with h2 | h2
    · rw [← h1] at h2
      exact (Prod.mk.injEq _ _ _ _ ▸ h2).1.symm
    · exact absurd (List.mem_map_of_mem Prod.snd h2) (by simp [← h1] at hn ⊢; exact hn.1)
    · exact absurd (List.mem_map_of_mem Prod.snd h1) (by simp [← h2] at hn ⊢; exact hn.1)
    · exact ih hn.2 h1 h2

theorem map_snd_filter (l : List (String × Nat)) (q : Nat → Bool) :
    (l.filter (fun p => q p.2)).map Prod.snd = (l.map Prod.snd).filter q := by
  induction l with
  | nil => rfl
  | cons p t ih =>
    by_cases hq : q p.2 <;> simp [List.filter_cons, hq, ih]

theorem filter_notmem_cons (l : List Nat) (id0 : Nat) (cl : List Nat) :
    l.filter (fun i => i ∉ (id0 :: cl)) =
      (l.filter (fun i => i ∉ cl)).filter (fun i => i ≠ id0) := by
  rw [List.filter_filter]
  apply List.filter_congr
  intro i _
  by_cases h1 : i ∈ cl <;> by_cases h2 : i = id0 <;> simp [h1, h2]

/-! ## Registry invariant -/

/-- The inductive invariant of the registry actor's state: address keys are
unique, the pool holds no duplicates, every id in play is below the fresh
counter, and the ids stored in the instance map are exactly the live pool
contents. -/
structure RegInv (s : RegState) : Prop where
  keysNodup : (s.instances.map Prod.fst).Nodup
  poolNodup : s.pool.Nodup
  instBound : ∀ p ∈ s.instances, p.2 < s.nextId
  poolBound : ∀ i ∈ s.pool, i < s.nextId
  closedBound : ∀ i ∈ s.closedIds, i < s.nextId
  eqIds : mapIds s = livePool s

theorem regInv_init : RegInv initRegState :=
  ⟨List.nodup_nil, List.nodup_nil, by simp [initRegState], by simp [initRegState],
    by simp [initRegState], rfl⟩

theorem idsNodup_of_regInv (s : RegState) (h : RegInv s) : (mapIds s).Nodup := by
  rw [h.eqIds]
  exact h.poolNodup.filter _

theorem regInv_addInstanceMux (s : RegState) (key : String) (h : RegInv s) :
    RegInv (addInstanceMux s key) := by
  unfold addInstanceMux
  cases hl : s.instances.lookup key with
  | some id => exact h
  | none =>
    have hkey : ∀ p ∈ s.instances, p.1 ≠ key := (lookup_eq_none_iff _ _).1 hl
    have hfreshClosed : s.nextId ∉ s.closedIds := fun hc =>
      absurd (h.closedBound _ hc) (lt_irrefl _)
    have hfreshPool : s.nextId ∉ s.pool := fun hc =>
      absurd (h.poolBound _ hc) (lt_irrefl _)
    have hrel : poolRelease s.pool s.closedIds s.nextId = s.pool ++ [s.nextId] := by
      simp [poolRelease, hfreshClosed]
    constructor
    · simp only [List.map_append, List.map_cons, List.map_nil]
      rw [List.nodup_append]
      refine ⟨h.keysNodup, List.nodup_singleton _, ?_⟩
      intro a ha hb
      simp only [List.mem_singleton] at hb
      subst hb
      obtain ⟨p, hp, hpk⟩ := List.mem_map.1 ha
      exact hkey p hp hpk
    · rw [hrel]
      exact List.Nodup.append h.poolNodup (List.nodup_singleton _)
        (by intro a ha hb; simp only [List.mem_singleton] at hb; subst hb; exact hfreshPool ha)
    · intro p hp
      rcases List.mem_append.1 hp with hp | hp
      · exact Nat.lt_succ_of_lt (h.instBound p hp)
      · simp only [List.mem_singleton] at hp
        subst hp
        exact Nat.lt_succ_self _
    · rw [hrel]
      intro i hi
      rcases List.mem_append.1 hi with hi | hi
      · exact Nat.lt_succ_of_lt (h.poolBound i hi)
      · simp only [List.mem_singleton] at hi
        subst hi
        exact Nat.lt_succ_self _
    · intro i hi
      exact Nat.lt_succ_of_lt (h.closedBound i hi)
    · show mapIds _ = livePool _
      have he := h.eqIds
      simp only [mapIds, livePool] at he
      simp only [mapIds, livePool, hrel, List.map_append, List.map_cons, List.map_nil,
        List.filter_append]
      rw [he]
      congr 1
      simp [hfreshClosed]

theorem regInv_removeInstanceMux (s : RegState) (key : String) (h : RegInv s) :
    RegInv (removeInstanceMux s key) := by
  unfold removeInstanceMux
  cases hl : s.instances.lookup key with
  | none => exact h
  | some id =>
    have hmem : (key, id) ∈ s.instances := mem_of_lookup_eq_some _ _ _ hl
    have hidsNodup : (mapIds s).Nodup := idsNodup_of_regInv s h
    constructor
    · exact List.Nodup.sublist (List.Sublist.map Prod.fst (List.filter_sublist _)) h.keysNodup
    · exact h.poolNodup
    · intro p hp
      exact h.instBound p (List.mem_of_mem_filter hp)
    · exact h.poolBound
    · intro i hi
      rcases List.mem_cons.1 hi with hi | hi
      · subst hi
        exact h.instBound _ hmem
      · exact h.closedBound i hi
    · show mapIds _ = livePool _
      have hidsNodup2 : (s.instances.map Prod.snd).Nodup := by
        simpa [mapIds] using hidsNodup
      have hpred : ∀ p ∈ s.instances,
          (decide (p.1 ≠ key)) = (decide (p.2 ≠ id)) := by
        intro p hp
        rw [decide_eq_decide]
        constructor
        · intro hne hsnd
          apply hne
          refine nodup_snd_eq s.instances hidsNodup2 id p.1 key ?_ hmem
          rw [← hsnd]
          simpa using hp
        · intro hne hfst
          apply hne
          refine nodup_fst_eq s.instances h.keysNodup key p.2 id ?_ hmem
          rw [← hfst]
          simpa using hp
      have he := h.eqIds
      simp only [mapIds, livePool] at he
      simp only [mapIds, livePool]
      rw [List.filter_congr hpred, map_snd_filter s.instances (fun i => i ≠ id),
        filter_notmem_cons s.pool id s.closedIds, he]

theorem regInv_muxNotification (s : RegState) (n : Notification) (h : RegInv s) :
    RegInv (muxNotification s n) := by
  cases n with
  | mk t addr reg =>
    cases t <;> cases reg <;>
      simp only [muxNotification, if_true, if_false] <;>
      first
        | exact regInv_addInstanceMux _ _ h
        | exact regInv_removeInstanceMux _ _ h

theorem regInv_muxBatch (s : RegState) (ns : List Notification) (h : RegInv s) :
    RegInv (muxBatch s ns) := by
  induction ns generalizing s with
  | nil => exact h
  | cons n t ih => exact ih _ (regInv_muxNotification s n h)

/-! ## Run lemmas for the dispatch loop -/

/-- How the `err` variable of `send` evolves on a non-returning iteration:
an attempt event overwrites it, a tick leaves it alone. -/
def updErr (acc : Option GoErr) : SendEvent → Option GoErr
  | SendEvent.attempt a => a.err
  | _ => acc

theorem sendRun_append (giveup : Int) (u : List Nat → Option GoErr)
    (evs1 evs2 : List SendEvent) (e0 e1 : Option GoErr)
    (h : sendRun giveup u e0 evs1 = RunOut.Running e1) :
    sendRun giveup u e0 (evs1 ++ evs2) = sendRun giveup u e1 evs2 := by
  induction evs1 generalizing e0 with
  | nil =>
    simp only [sendRun] at h
    cases h
    rfl
  | cons ev t ih =>
    simp only [sendRun, List.cons_append] at h ⊢
    cases hst : sendStep giveup u e0 ev with
    | Return r => rw [hst] at h; cases h
    | Continue e2 =>
      rw [hst] at h
      exact ih _ h

theorem sendRun_nonterminal (giveup : Int) (hg : giveup ≠ 0)
    (u : List Nat → Option GoErr) (evs : List SendEvent)
    (h : evs.all nonTerminalEv = true) (e0 : Option GoErr) :
    sendRun giveup u e0 evs = RunOut.Running (evs.foldl updErr e0) := by
  induction evs generalizing e0 with
  | nil => rfl
  | cons ev t ih =>
    simp only [List.all_cons, Bool.and_eq_true] at h
    cases ev with
    | tick =>
      simp only [sendRun, sendStep, List.foldl_cons]
      exact ih h.2 e0
    | deadline => simp [nonTerminalEv] at h
    | attempt a =>
      cases ha : a.err with
      | none =>
        have hcontra := h.1
        simp [nonTerminalEv, ha] at hcontra
      | some e =>
        have hsvc : isServiceError e = false := by
          have := h.1
          simp [nonTerminalEv, ha] at this
          exact this
        simp only [sendRun, sendStep, ha, hsvc, Bool.false_eq_true, if_false, if_neg hg,
          List.foldl_cons, updErr]
        exact ih h.2 (some e)

/-! ## Concrete fixtures used by witnesses and counterexamples -/

def addr1 : String := "a:1"

def nAddOn : Notification := { ntype := NType.add, addr := addr1, registered := true }

def nAddOff : Notification := { ntype := NType.add, addr := addr1, registered := false }

def nRemove : Notification := { ntype := NType.remove, addr := addr1, registered := true }

/-- A registry holding exactly one instance entry, as produced by one
registered Add notification for `addr1`. -/
def regOne : RegState := { nextId := 1, instances := [(addr1, 0)], pool := [0], closedIds := [] }

/-! ## Claims -/

/-- Claim C1 (code bug): the pair written by `SetTimeout` is never stored.
First conjunct: no select case of `mux` matches the `muxChan` send
performed by `SetTimeout`, so the write rendezvous can never complete.
Second conjunct: no sequence of `mux` loop iterations changes the stored
timeout pair, so the pair `GetTimeout` receives is always the zero pair,
never a pair previously set. -/
theorem setTimeout_pair_never_stored :
    (muxSelectOps.all (fun op => !chanMatches setTimeoutOp op) = true) ∧
    (∀ es : List MuxEvent,
      muxOffer (es.foldl muxStep initMuxState) = { retry := 0, giveup := 0 }) := by
  refine ⟨by decide, ?_⟩
  intro es
  have h : ∀ (s : MuxState) (es : List MuxEvent),
      (es.foldl muxStep s).retryTimeout = s.retryTimeout ∧
      (es.foldl muxStep s).giveupTimeout = s.giveupTimeout := by
    intro s es
    induction es generalizing s with
    | nil => exact ⟨rfl, rfl⟩
    | cons e t ih =>
      cases e with
      | notifications ns => simpa using ih (muxStep s (MuxEvent.notifications ns))
      | timeoutRead => simpa using ih s
  have h2 := h initMuxState es
  simp only [muxOffer]
  rw [h2.1, h2.2]
  rfl

/-- Claim C2: when an attempt result carries an error that is not a
`serviceError` (a transport-level failure), the `send` loop returns that
error at once if `giveup = 0`, and does not terminate — it records the
error and continues — if `giveup > 0`. -/
theorem transport_error_abort_or_continue (u : List Nat → Option GoErr)
    (err : Option GoErr) (a : sendAttempt) (e : GoErr)
    (ha : a.err = some e) (hsvc : isServiceError e = false) :
    sendStep 0 u err (SendEvent.attempt a) = StepOut.Return (some e) ∧
    (∀ giveup : Int, 0 < giveup →
      sendStep giveup u err (SendEvent.attempt a) = StepOut.Continue (some e)) := by
  constructor
  · simp [sendStep, ha, hsvc]
  · intro g hg
    have hne : ¬(g = 0) := by omega
    simp [sendStep, ha, hsvc, hne]

theorem transport_error_abort_or_continue_witness :
    sendStep 0 (fun _ => none) none
        (SendEvent.attempt { result := [], err := some (GoErr.transport 7) }) =
      StepOut.Return (some (GoErr.transport 7)) ∧
    sendStep 2 (fun _ => none) none
        (SendEvent.attempt { result := [], err := some (GoErr.transport 7) }) =
      StepOut.Continue (some (GoErr.transport 7)) := by
  have h := transport_error_abort_or_continue (fun _ => none) none
    { result := [], err := some (GoErr.transport 7) } (GoErr.transport 7) rfl rfl
  exact ⟨h.1, h.2 2 (by decide)⟩

/-- Claim C3: when an attempt result arrives with no error, or with a
`serviceError` (remote application error), the decoder is invoked on that
attempt's bytes and the loop returns exactly the decoder's outcome — in
particular a successful decode of a remote-application-error attempt's
payload replaces the application error with the decode outcome. -/
theorem decode_on_success_or_remote (giveup : Int) (u : List Nat → Option GoErr)
    (err : Option GoErr) (a : sendAttempt)
    (h : a.err = none ∨ ∃ e, a.err = some e ∧ isServiceError e = true) :
    sendStep giveup u err (SendEvent.attempt a) = StepOut.Return (u a.result) := by
  rcases h with h | ⟨e, he, hsvc⟩
  · simp [sendStep, h]
  · simp [sendStep, he, hsvc]

theorem decode_on_success_or_remote_witness :
    sendStep 0 (fun _ => none) none
        (SendEvent.attempt { result := [5], err := some (GoErr.remote 3) }) =
      StepOut.Return none :=
  decode_on_success_or_remote 0 (fun _ => none) none
    { result := [5], err := some (GoErr.remote 3) } (Or.inr ⟨GoErr.remote 3, rfl, rfl⟩)

/-- Claim C4 (counterexample): an Add notification with `registered =
false` for an address not yet in the map does not create an entry — `mux`
routes every unregistered Add/Update to `removeInstanceMux`, so the map
stays empty and nothing enters the pool. -/
theorem add_unregistered_no_insert :
    muxNotification initRegState nAddOff = initRegState ∧
    (muxNotification initRegState nAddOff).instances ≠ [(addr1, 0)] := by
  exact ⟨rfl, by decide⟩

/-- Claim C4 (amended): for every Add or Update notification with
`registered = true`, in any state the actor can reach from the initial
state: if the address is already known the notification is a no-op (the
state, hence map cardinality and pool, is unchanged); if unknown, a fresh
entry is inserted into the map and released into the instance pool, which
stays duplicate-free. -/
theorem add_registered_insert_or_noop (ns : List Notification) (s : RegState)
    (hs : s = muxBatch initRegState ns) (n : Notification)
    (hreg : n.registered = true)
    (ht : n.ntype = NType.add ∨ n.ntype = NType.update) :
    (s.instances.lookup n.addr ≠ none → muxNotification s n = s) ∧
    (s.instances.lookup n.addr = none →
      (muxNotification s n).instances = s.instances ++ [(n.addr, s.nextId)] ∧
      (muxNotification s n).pool = s.pool ++ [s.nextId] ∧
      (muxNotification s n).closedIds = s.closedIds ∧
      (muxNotification s n).pool.Nodup) := by
  have hinv : RegInv s := hs ▸ regInv_muxBatch initRegState ns regInv_init
  have hmn : muxNotification s n = addInstanceMux s n.addr := by
    rcases ht with ht | ht <;> simp [muxNotification, ht, hreg]
  constructor
  · intro hk
    cases hl : s.instances.lookup n.addr with
    | none => exact absurd hl hk
    | some id =>
      rw [hmn]
      unfold addInstanceMux
      rw [hl]
  · intro hk
    have hnodup := (regInv_addInstanceMux s n.addr hinv).poolNodup
    have hfreshClosed : s.nextId ∉ s.closedIds := fun hc =>
      absurd (hinv.closedBound _ hc) (lt_irrefl _)
    have hstep : addInstanceMux s n.addr =
        { nextId := s.nextId + 1
          instances := s.instances ++ [(n.addr, s.nextId)]
          pool := s.pool ++ [s.nextId]
          closedIds := s.closedIds } := by
      unfold addInstanceMux
      rw [hk]
      simp [poolRelease, hfreshClosed]
    rw [hmn, hstep]
    refine ⟨rfl, rfl, rfl, ?_⟩
    rw [hstep] at hnodup
    exact hnodup

theorem add_registered_insert_or_noop_witness :
    (initRegState.instances.lookup addr1 ≠ none →
      muxNotification initRegState nAddOn = initRegState) ∧
    (initRegState.instances.lookup addr1 = none →
      (muxNotification initRegState nAddOn).instances =
        initRegState.instances ++ [(addr1, initRegState.nextId)] ∧
      (muxNotification initRegState nAddOn).pool = initRegState.pool ++ [initRegState.nextId] ∧
      (muxNotification initRegState nAddOn).closedIds = initRegState.closedIds ∧
      (muxNotification initRegState nAddOn).pool.Nodup) :=
  add_registered_insert_or_noop [] initRegState rfl nAddOn rfl (Or.inl rfl)

/-- Claim C5: when the give-up deadline fires after any run of retry ticks
and transport-error attempt results, `send` returns the most recently
recorded attempt error, or the request-timeout error if no attempt error
has been recorded yet. -/
theorem deadline_last_error_or_timeout (giveup : Int) (hg : 0 < giveup)
    (u : List Nat → Option GoErr) (evs : List SendEvent)
    (h : evs.all nonTerminalEv = true) :
    sendRun giveup u none (evs ++ [SendEvent.deadline]) =
      RunOut.Returned (some ((evs.foldl updErr none).getD GoErr.requestTimeout)) := by
  have hg0 : giveup ≠ 0 := by omega
  have h1 := sendRun_nonterminal giveup hg0 u evs h none
  rw [sendRun_append giveup u evs [SendEvent.deadline] none _ h1]
  cases hl : evs.foldl updErr none with
  | none => simp [sendRun, sendStep, hl]
  | some e => simp [sendRun, sendStep, hl]

theorem deadline_last_error_or_timeout_witness :
    sendRun 5 (fun _ => none) none
        ([SendEvent.tick, SendEvent.attempt { result := [], err := some (GoErr.transport 9) }] ++
          [SendEvent.deadline]) =
      RunOut.Returned (some (GoErr.transport 9)) := by
  have h := deadline_last_error_or_timeout 5 (by decide) (fun _ => none)
    [SendEvent.tick, SendEvent.attempt { result := [], err := some (GoErr.transport 9) }]
    (by decide)
  exact h.trans (by decide)

/-- Claim C6: after the actor processes any sequence of discovery
notifications from the initial state, the entry ids stored in the instance
map coincide (even as lists, hence as sets of Instance Entries) with the
entries currently live in the instance resource pool — every add and every
remove updates map and pool in the same `muxNotification` step. -/
theorem mux_map_pool_sync (ns : List Notification) :
    mapIds (muxBatch initRegState ns) = livePool (muxBatch initRegState ns) :=
  (regInv_muxBatch initRegState ns regInv_init).eqIds

/-- Claim C7 (counterexample): an instance-pool acquisition failure (nil
resource alongside an error) is not surfaced on the attempt channel: the
error is bound to the blank identifier and the goroutine dies on the nil
type assertion, pushing nothing. -/
theorem instance_acquire_error_not_surfaced :
    (attemptSendRun [] [] [] 0 none (some (GoErr.acquireErr 1)) (Except.ok ()) (Except.ok [])
        (fun _ => Except.ok { out := [], err := none })).push = AttemptPush.panicked ∧
    AttemptPush.panicked ≠ AttemptPush.pushed { result := [], err := some (GoErr.acquireErr 1) } := by
  exact ⟨rfl, by decide⟩

/-- Claim C7 (amended): a connection-acquisition failure is surfaced as
the attempt's error on the attempt-result channel, and acquisition errors
are not `serviceError`s, so the engine treats them as transport-level
failures; an instance-pool acquisition failure, by contrast, is never
surfaced (its error is discarded at the call site). -/
theorem conn_acquire_error_surfaced (instances : List (String × Nat))
    (instPool closedIds : List Nat) (spId : Nat) (iaErr : Option GoErr) (e : GoErr)
    (marshal : Except GoErr (List Nat)) (call : List Nat → Except GoErr ServiceRPCOut) :
    (attemptSendRun instances instPool closedIds spId (some ()) iaErr (Except.error e)
        marshal call).push = AttemptPush.pushed { result := [], err := some e } ∧
    (∀ n, isServiceError (GoErr.acquireErr n) = false) :=
  ⟨rfl, fun _ => rfl⟩

/-- Claim C8: a Remove notification, or an Update with `registered =
false`, for a known address closes that entry (its id joins the closed
set, so it is no longer live in the pool) and deletes it from the map; for
an unknown address the notification is a no-op: the state, in particular
the map, is unchanged. -/
theorem remove_notification_close_or_noop (s : RegState) (n : Notification)
    (ht : n.ntype = NType.remove ∨ (n.ntype = NType.update ∧ n.registered = false)) :
    (s.instances.lookup n.addr = none → muxNotification s n = s) ∧
    (∀ id, s.instances.lookup n.addr = some id →
      (muxNotification s n).instances = s.instances.filter (fun p => p.1 ≠ n.addr) ∧
      (muxNotification s n).closedIds = id :: s.closedIds ∧
      (muxNotification s n).pool = s.pool ∧
      id ∉ livePool (muxNotification s n)) := by
  have hmn : muxNotification s n = removeInstanceMux s n.addr := by
    rcases ht with ht | ⟨ht, hr⟩
    · simp [muxNotification, ht]
    · simp [muxNotification, ht, hr]
  constructor
  · intro hk
    rw [hmn]
    unfold removeInstanceMux
    rw [hk]
  · intro id hk
    have hstep : removeInstanceMux s n.addr =
        { nextId := s.nextId
          instances := s.instances.filter (fun p => p.1 ≠ n.addr)
          pool := s.pool
          closedIds := id :: s.closedIds } := by
      unfold removeInstanceMux
      rw [hk]
    rw [hmn, hstep]
    refine ⟨rfl, rfl, rfl, ?_⟩
    simp [livePool]

theorem remove_notification_close_or_noop_witness :
    (muxNotification regOne nRemove).instances = [] ∧
    (muxNotification regOne nRemove).closedIds = [0] ∧
    (muxNotification regOne nRemove).pool = [0] ∧
    0 ∉ livePool (muxNotification regOne nRemove) := by
  have h := (remove_notification_close_or_noop regOne nRemove (Or.inl rfl)).2 0 rfl
  exact ⟨h.1.trans (by decide), h.2.1, h.2.2.1, h.2.2.2⟩

/-- Claim C9 (counterexample): `send` launches attempts with the caller's
nil `requestInfo` passed through unchanged — it synthesizes nothing before
launching — and two attempts that draw distinct fresh UUIDs inside
`sendToInstance` carry distinct request identifiers. -/
theorem send_does_not_synthesize_requestinfo :
    (sendSetup 0 0 none).attemptRI = none ∧
    sendToInstanceRI none 1 ≠ sendToInstanceRI none 2 := by
  exact ⟨rfl, by decide⟩

/-- Claim C9 (amended): `send` passes `requestInfo` to every attempt
unchanged; the synthesis happens per attempt inside `sendToInstance`: a
nil pointer becomes a fresh identifier drawn by that attempt (so distinct
attempts may carry distinct identifiers), and a non-nil pointer is used as
is by all attempts. -/
theorem requestinfo_synthesized_per_attempt (retry giveup : Int)
    (ri : Option RequestInfo) (uuid : Nat) (r : RequestInfo) :
    (sendSetup retry giveup ri).attemptRI = ri ∧
    (sendToInstanceRI none uuid).requestID = uuid ∧
    sendToInstanceRI (some r) uuid = r :=
  ⟨rfl, rfl, rfl⟩

/-- Claim C10: when the wire call on a leased connection fails at the
transport level, only the connection is closed: the attempt pushes the
transport error, the instance entry's closed flag and the instance map are
untouched, and the deferred release still returns the (not closed)
instance entry to the instance pool. -/
theorem wire_failure_closes_only_connection (instances : List (String × Nat))
    (instPool closedIds : List Nat) (spId : Nat) (iaErr : Option GoErr)
    (e : GoErr) (m : List Nat) (hsp : spId ∉ closedIds) :
    attemptSendRun instances instPool closedIds spId (some ()) iaErr (Except.ok ()) (Except.ok m)
        (fun _ => Except.error e) =
      { push := AttemptPush.pushed { result := [], err := some e }
        connClosed := true
        closedIdsAfter := closedIds
        instancesAfter := instances
        instPoolAfter := instPool ++ [spId] } := by
  simp [attemptSendRun, sendToInstance, poolRelease, hsp]

theorem wire_failure_closes_only_connection_witness :
    attemptSendRun [] [] [] 0 (some ()) none (Except.ok ()) (Except.ok [])
        (fun _ => Except.error (GoErr.transport 1)) =
      { push := AttemptPush.pushed { result := [], err := some (GoErr.transport 1) }
        connClosed := true
        closedIdsAfter := []
        instancesAfter := []
        instPoolAfter := [0] } :=
  wire_failure_closes_only_connection [] [] [] 0 none (GoErr.transport 1) [] (by decide)

end Skynet
